import Mathlib

/-!
Shallow embedding of the form-model binding and persistence engine of
`gui_gtk/src/gui/main_window.rs` from the space_engineers_calc repository.

Conventions of the embedding:
* Rust `HashMap<K, V>` becomes an association list `List (K × V)` with
  first-match lookup (`alGet`) and replace-or-append insertion (`alInsert`);
  iteration order of a `HashMap` is unspecified in Rust, the list order
  stands in for one such order.
* The scalar parameters of `GridCalculator` are `f64` in Rust; every claim
  treats them opaquely, so the calculator is parametric in a scalar type
  `σ` together with its parse / format / default data (`ScalarOps`), which
  stand for the `FromStr` and `Display` instances and the literal defaults
  of `MainWindow::initialize` (main_window.rs lines 421-429).
* Block counts are `u64` in Rust and become `Nat`; `parse_u64` fails on
  values outside `u64` range exactly as `str::parse::<u64>` does.
* A GTK `Entry` is modelled by its text; `gtk_entry_set_text` is a no-op
  when the new text equals the current text and otherwise changes the text
  and fires the `connect_changed` handler once.  (Real GTK may fire the
  handler more than once per `set_text`; that only increases the number of
  recalculation-trigger firings and affects neither final texts nor the
  final state, and no theorem below depends on the exact count except on
  concrete inputs evaluated in this model.)
* `recalculate` (main_window.rs line 564) calls the external
  `calculate` collaborator on the current calculator and pushes the result
  to display labels; the embedding records the calculator snapshot passed
  to `calculate` in `recalc_log`, newest first.
* File input and the external `from_json` / `to_json` collaborators are
  parameters: a file system maps a path to its optional contents, and the
  serializers are optional-valued functions (failure = `None`, the error
  payloads being opaque).
-/

/-- First-match lookup in an association list, as `HashMap::get`. -/
def alGet {κ ν : Type} [DecidableEq κ] : List (κ × ν) → κ → Option ν
  | [], _ => none
  | p :: ps, k => if p.1 = k then some p.2 else alGet ps k

/-- Replace-or-append insertion in an association list, as `HashMap::insert`. -/
def alInsert {κ ν : Type} [DecidableEq κ] : List (κ × ν) → κ → ν → List (κ × ν)
  | [], k, v => [(k, v)]
  | p :: ps, k, v => if p.1 = k then (k, v) :: ps else p :: alInsert ps k v

/-- The keys of an association list. -/
def alKeys {κ ν : Type} : List (κ × ν) → List κ :=
  fun l => l.map Prod.fst

theorem alGet_alInsert {κ ν : Type} [DecidableEq κ] (m : List (κ × ν)) (k k' : κ) (v : ν) :
    alGet (alInsert m k v) k' = if k = k' then some v else alGet m k' := by
  induction m with
  | nil => by_cases h : k = k' <;> simp [alInsert, alGet, h]
  | cons p ps ih =>
    by_cases hp : p.1 = k
    · by_cases h : k = k'
      · simp [alInsert, alGet, hp, h]
      · have hp' : ¬ p.1 = k' := fun hc => h (hp.symm.trans hc)
        simp [alInsert, alGet, hp, h, hp']
    · by_cases hq : p.1 = k'
      · have h : ¬ k = k' := fun hc => hp (hq.trans hc.symm)
        have h2 : ¬ k' = k := fun hc => h hc.symm
        simp [alInsert, alGet, hp, hq, h, h2]
      · simp [alInsert, alGet, hp, hq, ih]

theorem alGet_isSome_alInsert {κ ν : Type} [DecidableEq κ] (m : List (κ × ν)) (k k' : κ) (v : ν)
    (h : (alGet m k').isSome = true) : (alGet (alInsert m k v) k').isSome = true := by
  rw [alGet_alInsert]
  by_cases he : k = k' <;> simp [he, h]

theorem mem_alInsert {κ ν : Type} [DecidableEq κ] (m : List (κ × ν)) (k : κ) (v : ν) :
    ∀ q ∈ alInsert m k v, q ∈ m ∨ q = (k, v) := by
  induction m with
  | nil => intro q hq; simp [alInsert] at hq; simp [hq]
  | cons p ps ih =>
    intro q hq
    by_cases hp : p.1 = k
    · simp [alInsert, hp] at hq
      rcases hq with hq | hq
      · right; simp [hq]
      · left; simp [hq]
    · simp [alInsert, hp] at hq
      rcases hq with hq | hq
      · left; simp [hq]
      · rcases ih q hq with h | h
        · left; simp [h]
        · right; exact h

theorem alGet_mem {κ ν : Type} [DecidableEq κ] (m : List (κ × ν)) (k : κ) (v : ν)
    (h : alGet m k = some v) : (k, v) ∈ m := by
  induction m with
  | nil => simp [alGet] at h
  | cons p ps ih =>
    by_cases hp : p.1 = k
    · simp [alGet, hp] at h
      have hpv : p = (k, v) := Prod.ext hp h
      exact List.mem_cons.mpr (Or.inl hpv.symm)
    · simp [alGet, hp] at h
      exact List.mem_cons.mpr (Or.inr (ih h))

/-- The six thruster directions (`secalc_core::grid::Direction`). -/
inductive Direction : Type
  | Up
  | Down
  | Front
  | Back
  | Left
  | Right
deriving DecidableEq

/-- Direction iteration order used by `Direction::iter()` and mirrored by the
match in `MainWindow::new` (main_window.rs lines 205-212). -/
def Direction.iterList : List Direction :=
  [.Up, .Down, .Front, .Back, .Left, .Right]

/-- Block identifiers (`secalc_core::data::blocks::BlockId`), opaque and
comparable; modelled as strings. -/
abbrev BlockId := String

/-- The nine scalar parameter fields of `GridCalculator` bound by
`MainWindow::initialize` (main_window.rs lines 421-429). -/
inductive ScalarField : Type
  | gravity_multiplier
  | container_multiplier
  | planetary_influence
  | additional_mass
  | ice_only_fill
  | ore_only_fill
  | any_fill_with_ice
  | any_fill_with_ore
  | any_fill_with_steel_plates
deriving DecidableEq

/-- Source order of the scalar field bindings, which is also the refresh
order of `process_open` (main_window.rs lines 650-658). -/
def ScalarField.iterList : List ScalarField :=
  [.gravity_multiplier, .container_multiplier, .planetary_influence, .additional_mass,
   .ice_only_fill, .ore_only_fill, .any_fill_with_ice, .any_fill_with_ore,
   .any_fill_with_steel_plates]

/-- The scalar-type data the engine consumes: `FromStr` parsing, the
`format!("\x7b:.2\x7d", v)` rendering used by `MyEntryExt::set`, and the
per-field default passed to `set_and_recalc_on_change`. -/
structure ScalarOps (σ : Type) where
  parse : String → Option σ
  format : σ → String
  default : ScalarField → σ

/-- The model calculator (`secalc_core::grid::GridCalculator`) as used by the
GUI: nine named scalar parameters (indexed here by `ScalarField`), the shared
undirected block-count map `blocks`, and the per-direction map
`directional_blocks`. -/
structure GridCalculator (σ : Type) where
  scalars : ScalarField → σ
  blocks : List (BlockId × Nat)
  directional_blocks : List (Direction × List (BlockId × Nat))

/-- Modelled from the spec: `GridCalculator::iter_block_counts` of
`secalc_core` is not under `src/`; per the spec, the load refresh writes the
field of every `(CatalogItemId, count)` pair present in the newly loaded
undirected map, so the iterator yields the pairs of `blocks`. -/
def GridCalculator.iter_block_counts {σ : Type} (c : GridCalculator σ) : List (BlockId × Nat) :=
  c.blocks

/-- Decimal value of one ASCII digit character. -/
def digitVal (c : Char) : Option Nat :=
  if 48 ≤ c.toNat ∧ c.toNat ≤ 57 then some (c.toNat - 48) else none

/-- Accumulate the decimal value of a digit string, failing on a non-digit. -/
def digitsToNat : List Char → Nat → Option Nat
  | [], acc => some acc
  | c :: cs, acc =>
    match digitVal c with
    | none => none
    | some d => digitsToNat cs (acc * 10 + d)

/-- `str::parse::<u64>` on digit strings: fails on empty or non-digit input
and on values outside `u64` range (the optional leading sign Rust accepts is
not modelled; no claim involves one). -/
def parse_u64 (s : String) : Option Nat :=
  match s.data with
  | [] => none
  | cs =>
    match digitsToNat cs 0 with
    | some n => if n < 2 ^ 64 then some n else none
    | none => none

/-- `format!("\x7b:.2\x7d", count)` for a `u64` count: the precision flag is
ignored by the integer `Display` implementation, so this is plain decimal. -/
def format_u64 (n : Nat) : String :=
  toString n

/-- `MyEntryExt::parse` (main_window.rs lines 746-748): parse the entry text,
falling back to the supplied default on failure. -/
def entry_parse {σ : Type} (parse : String → Option σ) (default : σ) (text : String) : σ :=
  (parse text).getD default

/-- The `State` struct of main_window.rs (lines 134-138). -/
structure State (σ : Type) where
  current_dir_path : Option String
  current_file_path : Option String
  calculator : GridCalculator σ

/-- The window model: the texts of the bound entry widgets (scalar entries by
field, the undirected `BlockEntries::entries` table, and the six directional
tables indexed by `Direction`), the owned `State`, and the log of calculator
snapshots handed to the external `calculate` collaborator by `recalculate`,
newest first. -/
structure MainWindow (σ : Type) where
  scalar_texts : ScalarField → String
  entries : List (BlockId × String)
  dir_entries : Direction → List (BlockId × String)
  state : State σ
  recalc_log : List (GridCalculator σ)

/-- `MainWindow::recalculate` (main_window.rs line 564): pass the current
calculator to the external `calculate` and push the results to the display
labels; the embedding records the snapshot. -/
def recalculate {σ : Type} (w : MainWindow σ) : MainWindow σ :=
  { w with recalc_log := w.state.calculator :: w.recalc_log }

/-- Write one scalar parameter of the calculator. -/
def GridCalculator.setScalar {σ : Type} (c : GridCalculator σ) (f : ScalarField) (v : σ) :
    GridCalculator σ :=
  { c with scalars := fun g => if g = f then v else c.scalars g }

/-- The `connect_changed` handler installed by
`MyEntryExt::set_and_recalc_on_change` (main_window.rs lines 762-768): parse
the current entry text with the per-field default, write it through the
accessor into the calculator, recalculate. -/
def set_and_recalc_handler {σ : Type} (ops : ScalarOps σ) (f : ScalarField)
    (w : MainWindow σ) : MainWindow σ :=
  let v := entry_parse ops.parse (ops.default f) (w.scalar_texts f)
  recalculate { w with state := { w.state with calculator := w.state.calculator.setScalar f v } }

/-- The `connect_changed` handler installed by
`MyEntryExt::insert_and_recalc_on_change` for an undirected block entry
(main_window.rs lines 754-760, with `calculator_func = |c| &mut c.blocks`):
insert the parsed count (default 0) for the block id, recalculate. -/
def insert_and_recalc_handler {σ : Type} (id : BlockId) (w : MainWindow σ) : MainWindow σ :=
  let n := entry_parse parse_u64 0 ((alGet w.entries id).getD "")
  let c := w.state.calculator
  recalculate { w with state := { w.state with calculator := { c with blocks := alInsert c.blocks id n } } }

/-- The `connect_changed` handler installed for a directional block entry
(main_window.rs lines 516-543, with
`calculator_func = |c| c.directional_blocks.get_mut(&direction).unwrap()`):
`none` is the panic of the `unwrap` on a missing direction key. -/
def insert_and_recalc_dir_handler {σ : Type} (d : Direction) (id : BlockId)
    (w : MainWindow σ) : Option (MainWindow σ) :=
  match alGet w.state.calculator.directional_blocks d with
  | none => none
  | some m =>
    let n := entry_parse parse_u64 0 ((alGet (w.dir_entries d) id).getD "")
    let c := w.state.calculator
    some (recalculate { w with state := { w.state with calculator := { c with directional_blocks := alInsert c.directional_blocks d (alInsert m id n) } } })

/-- Update the text of the scalar entry for field `f`. -/
def setScalarText {σ : Type} (f : ScalarField) (t : String) (w : MainWindow σ) : MainWindow σ :=
  { w with scalar_texts := fun g => if g = f then t else w.scalar_texts g }

/-- A user edit of a scalar entry: the text changes to `t` and GTK fires the
`changed` handler installed by `set_and_recalc_on_change`. -/
def user_edit_scalar {σ : Type} (ops : ScalarOps σ) (f : ScalarField) (t : String)
    (w : MainWindow σ) : MainWindow σ :=
  set_and_recalc_handler ops f (setScalarText f t w)

/-- A user edit of an undirected block entry: the text changes to `t` and the
`insert_and_recalc_on_change` handler fires. -/
def user_edit_block {σ : Type} (id : BlockId) (t : String) (w : MainWindow σ) : MainWindow σ :=
  insert_and_recalc_handler id { w with entries := alInsert w.entries id t }

/-- A user edit of a directional block entry for direction `d`: the text
changes to `t` and the directional handler fires (`none` = panic on a
missing direction key). -/
def user_edit_dir_block {σ : Type} (d : Direction) (id : BlockId) (t : String)
    (w : MainWindow σ) : Option (MainWindow σ) :=
  insert_and_recalc_dir_handler d id
    { w with dir_entries := fun d' => if d' = d then alInsert (w.dir_entries d) id t else w.dir_entries d' }

/-- `MyEntryExt::set` on a scalar entry during `process_open`
(main_window.rs lines 650-658): render the value, and set the entry text;
`gtk_entry_set_text` is a no-op on identical text and otherwise fires the
`changed` handler. -/
def set_scalar_entry {σ : Type} (ops : ScalarOps σ) (f : ScalarField) (v : σ)
    (w : MainWindow σ) : MainWindow σ :=
  let t := ops.format v
  if t = w.scalar_texts f then w
  else set_and_recalc_handler ops f (setScalarText f t w)

/-- Set the text of the undirected block entry for `id` (no-op when the entry
does not exist or already shows this text; otherwise the handler fires). -/
def set_block_entry {σ : Type} (id : BlockId) (t : String) (w : MainWindow σ) : MainWindow σ :=
  match alGet w.entries id with
  | none => w
  | some old =>
    if old = t then w
    else insert_and_recalc_handler id { w with entries := alInsert w.entries id t }

/-- Set the text of the directional block entry for `(d, id)` (no-op when
absent or unchanged; otherwise the directional handler fires, `none` being
its panic on a missing direction key). -/
def set_dir_block_entry {σ : Type} (d : Direction) (id : BlockId) (t : String)
    (w : MainWindow σ) : Option (MainWindow σ) :=
  match alGet (w.dir_entries d) id with
  | none => some w
  | some old =>
    if old = t then some w
    else insert_and_recalc_dir_handler d id
      { w with dir_entries := fun d' => if d' = d then alInsert (w.dir_entries d) id t else w.dir_entries d' }

/-- The blanking pass of `process_open` (main_window.rs lines 667-670):
`entry.set("")` for every entry reachable from `BlockEntries::iter_entries`,
in the order entries, up, down, front, back, left, right. -/
def blank_undirected {σ : Type} (w : MainWindow σ) : MainWindow σ :=
  (alKeys w.entries).foldl (fun w id => set_block_entry id "" w) w

def blank_all_entries {σ : Type} (w : MainWindow σ) : Option (MainWindow σ) :=
  Direction.iterList.foldlM
    (fun w d => (alKeys (w.dir_entries d)).foldlM (fun w id => set_dir_block_entry d id "" w) w)
    (blank_undirected w)

/-- `set_entries_from` (main_window.rs lines 660-666) on the undirected
entry table: for every `(block_id, count)` pair of the loaded map, write the
formatted count into the bound entry when one exists, skipping ids with no
bound entry. -/
def set_entries_from {σ : Type} (pairs : List (BlockId × Nat)) (w : MainWindow σ) : MainWindow σ :=
  pairs.foldl (fun w p => set_block_entry p.1 (format_u64 p.2) w) w

/-- `set_entries_from` on one directional entry table. -/
def set_dir_entries_from {σ : Type} (d : Direction) (pairs : List (BlockId × Nat))
    (w : MainWindow σ) : Option (MainWindow σ) :=
  pairs.foldlM (fun w p => set_dir_block_entry d p.1 (format_u64 p.2) w) w

/-- The scalar-entry refresh of `process_open` (main_window.rs lines
650-658), in source order. -/
def scalar_refresh {σ : Type} (ops : ScalarOps σ) (calculator : GridCalculator σ)
    (w : MainWindow σ) : MainWindow σ :=
  ScalarField.iterList.foldl (fun w f => set_scalar_entry ops f (calculator.scalars f) w) w

/-- The directional part of the refresh (main_window.rs lines 672-677): for
each direction, look the loaded map up (`unwrap`, so `none` = panic) and
write its pairs into the bound entries of that direction. -/
def dir_refresh {σ : Type} (calculator : GridCalculator σ) (w : MainWindow σ) :
    Option (MainWindow σ) :=
  Direction.iterList.foldlM
    (fun w d =>
      match alGet calculator.directional_blocks d with
      | none => none
      | some pairs => set_dir_entries_from d pairs w) w

/-- The field-refresh phase of `process_open` (main_window.rs lines 650-678),
run before the calculator replacement: set the nine scalar entries from the
loaded calculator, blank every block entry, then write every pair of the
loaded undirected and directional maps into its bound entry.  `none` is a
panic of a directional `unwrap` (either a handler on the still-current
calculator, or the per-direction lookup on the loaded calculator). -/
def refresh_phase {σ : Type} (ops : ScalarOps σ) (calculator : GridCalculator σ)
    (w : MainWindow σ) : Option (MainWindow σ) :=
  (blank_all_entries (scalar_refresh ops calculator w)).bind
    (fun w => dir_refresh calculator (set_entries_from calculator.iter_block_counts w))

/-- The `OpenError` enum (main_window.rs lines 21-27); each variant carries
the offending path (the `std::io::Error` / `ReadError` payloads are opaque
and omitted). -/
inductive OpenError : Type
  | OpenFile (file_path : String)
  | OpenDeserialize (file_path : String)
deriving DecidableEq

/-- The `SaveError` enum (main_window.rs lines 29-35). -/
inductive SaveError : Type
  | SaveFile (file_path : String)
  | SaveSerialize (file_path : String)
deriving DecidableEq

/-- Outcome of `process_open`: the typed error with the window as it stands
at the early return, a panic, or success. -/
inductive OpenOutcome (σ : Type) : Type
  | error (e : OpenError) (w : MainWindow σ)
  | panic
  | ok (w : MainWindow σ)

/-- `Path::parent` on a `/`-separated path string, `None` for an empty path:
drop the final component and its separator. -/
def path_parent (p : String) : Option String :=
  if p = "" then none
  else some (String.mk ((p.data.reverse.dropWhile (fun c => !(c = '/' : Bool))).drop 1).reverse)

/-- `MainWindow::process_open` (main_window.rs lines 643-685).  `fs` maps a
path to its readable contents (`none` = I/O failure), `from_json` is the
external deserializer (`none` = deserialize failure).  On success the field
refreshes run first (each text change firing its handler against the
still-current calculator), then the state records the path as remembered
file and directory and the calculator is replaced by the loaded instance. -/
def process_open {σ : Type} (ops : ScalarOps σ) (fs : String → Option String)
    (from_json : String → Option (GridCalculator σ)) (file_path : String)
    (w : MainWindow σ) : OpenOutcome σ :=
  match fs file_path with
  | none => .error (.OpenFile file_path) w
  | some contents =>
    match from_json contents with
    | none => .error (.OpenDeserialize file_path) w
    | some calculator =>
      match refresh_phase ops calculator w with
      | none => .panic
      | some w =>
        .ok { w with state :=
          { current_file_path := some file_path
            current_dir_path := path_parent file_path
            calculator := calculator } }

/-- Writing `s` from the start of a file previously holding `old`, without
truncation: when `old` is longer than `s`, its tail beyond `s` remains. -/
def write_no_truncate (s old : String) : String :=
  String.mk (s.data ++ old.data.drop s.data.length)

/-- A file system for saving: per-path contents and per-path writability. -/
structure FS where
  files : List (String × String)
  writable : String → Bool

/-- Outcome of `process_save`, carrying the window and file system. -/
inductive SaveOutcome (σ : Type) : Type
  | error (e : SaveError) (w : MainWindow σ) (fs : FS)
  | ok (w : MainWindow σ) (fs : FS)

/-- `MainWindow::process_save` (main_window.rs lines 713-724).  The writer is
opened with `write(true).create(true)` and NO `truncate(true)`: a successful
write of serialized text `s` over previous contents `old` leaves
`s ++ old.drop s.length` in the file.  `to_json` is the external serializer
(`none` = serialize failure; partial bytes it may have written before
failing are not modelled, no claim depends on them).  The remembered file
path and directory are updated only after serialization succeeds. -/
def process_save {σ : Type} (to_json : GridCalculator σ → Option String) (fs : FS)
    (file_path : String) (w : MainWindow σ) : SaveOutcome σ :=
  if fs.writable file_path = false then .error (.SaveFile file_path) w fs
  else
    match to_json w.state.calculator with
    | none => .error (.SaveSerialize file_path) w fs
    | some s =>
      let contents :=
        match alGet fs.files file_path with
        | some old => write_no_truncate s old
        | none => s
      let fs' : FS := { fs with files := alInsert fs.files file_path contents }
      .ok { w with state :=
        { w.state with
          current_file_path := some file_path
          current_dir_path := path_parent file_path } } fs'

/-- All six direction keys are present in a directional map — the
construction-time invariant named by the spec. -/
def hasAllDirections (dbs : List (Direction × List (BlockId × Nat))) : Bool :=
  Direction.iterList.all fun d => (alGet dbs d).isSome

theorem hasAllDirections_get {dbs : List (Direction × List (BlockId × Nat))}
    (h : hasAllDirections dbs = true) (d : Direction) :
    ∃ m, alGet dbs d = some m := by
  have hs : (alGet dbs d).isSome = true := by
    simp only [hasAllDirections, Direction.iterList, List.all_cons, List.all_nil,
      Bool.and_eq_true, Bool.and_true, and_true] at h
    obtain ⟨h1, h2, h3, h4, h5, h6⟩ := h
    cases d <;> assumption
  exact Option.isSome_iff_exists.mp hs

theorem hasAllDirections_alInsert {dbs : List (Direction × List (BlockId × Nat))}
    (d : Direction) (m : List (BlockId × Nat)) (h : hasAllDirections dbs = true) :
    hasAllDirections (alInsert dbs d m) = true := by
  simp only [hasAllDirections, Direction.iterList, List.all_cons, List.all_nil,
    Bool.and_eq_true, Bool.and_true, and_true] at h ⊢
  obtain ⟨h1, h2, h3, h4, h5, h6⟩ := h
  exact ⟨alGet_isSome_alInsert _ _ _ _ h1, alGet_isSome_alInsert _ _ _ _ h2,
    alGet_isSome_alInsert _ _ _ _ h3, alGet_isSome_alInsert _ _ _ _ h4,
    alGet_isSome_alInsert _ _ _ _ h5, alGet_isSome_alInsert _ _ _ _ h6⟩

theorem set_scalar_entry_dirblocks {σ : Type} (ops : ScalarOps σ) (f : ScalarField) (v : σ)
    (w : MainWindow σ) :
    (set_scalar_entry ops f v w).state.calculator.directional_blocks
      = w.state.calculator.directional_blocks := by
  by_cases hfmt : ops.format v = w.scalar_texts f <;>
    simp [set_scalar_entry, hfmt, set_and_recalc_handler, recalculate, setScalarText,
      GridCalculator.setScalar]

theorem set_block_entry_dirblocks {σ : Type} (id : BlockId) (t : String) (w : MainWindow σ) :
    (set_block_entry id t w).state.calculator.directional_blocks
      = w.state.calculator.directional_blocks := by
  unfold set_block_entry
  cases halGet : alGet w.entries id with
  | none => rfl
  | some old =>
    by_cases he : old = t
    · simp [he]
    · simp [he, insert_and_recalc_handler, recalculate]

theorem foldl_dirblocks {σ α : Type} (step : MainWindow σ → α → MainWindow σ)
    (hstep : ∀ w a, (step w a).state.calculator.directional_blocks
      = w.state.calculator.directional_blocks) :
    ∀ (l : List α) (w : MainWindow σ),
      ((l.foldl step w).state.calculator.directional_blocks)
        = w.state.calculator.directional_blocks := by
  intro l
  induction l with
  | nil => intro w; rfl
  | cons a as ih => intro w; rw [List.foldl_cons, ih, hstep]

theorem insert_and_recalc_dir_handler_some {σ : Type} (d : Direction) (id : BlockId)
    (w : MainWindow σ) (h : hasAllDirections w.state.calculator.directional_blocks = true) :
    ∃ w', insert_and_recalc_dir_handler d id w = some w'
      ∧ hasAllDirections w'.state.calculator.directional_blocks = true := by
  obtain ⟨m, hm⟩ := hasAllDirections_get h d
  simp only [insert_and_recalc_dir_handler, hm]
  exact ⟨_, rfl, hasAllDirections_alInsert d _ h⟩

theorem set_dir_block_entry_some {σ : Type} (d : Direction) (id : BlockId) (t : String)
    (w : MainWindow σ) (h : hasAllDirections w.state.calculator.directional_blocks = true) :
    ∃ w', set_dir_block_entry d id t w = some w'
      ∧ hasAllDirections w'.state.calculator.directional_blocks = true := by
  unfold set_dir_block_entry
  cases halGet : alGet (w.dir_entries d) id with
  | none => exact ⟨w, rfl, h⟩
  | some old =>
    by_cases he : old = t
    · exact ⟨w, by simp [he], h⟩
    · simp only [he, if_false]
      exact insert_and_recalc_dir_handler_some d id _ h

theorem foldlM_some {σ α : Type} (step : MainWindow σ → α → Option (MainWindow σ))
    (P : MainWindow σ → Prop)
    (hstep : ∀ w a, P w → ∃ w', step w a = some w' ∧ P w') :
    ∀ (l : List α) (w : MainWindow σ), P w →
      ∃ w', l.foldlM step w = some w' ∧ P w' := by
  intro l
  induction l with
  | nil => intro w hw; exact ⟨w, rfl, hw⟩
  | cons a as ih =>
    intro w hw
    obtain ⟨w1, h1, hP1⟩ := hstep w a hw
    obtain ⟨w2, h2, hP2⟩ := ih w1 hP1
    exact ⟨w2, by rw [List.foldlM_cons, h1]; exact h2, hP2⟩

theorem blank_undirected_dirblocks {σ : Type} (w : MainWindow σ) :
    (blank_undirected w).state.calculator.directional_blocks
      = w.state.calculator.directional_blocks :=
  foldl_dirblocks _ (fun w id => set_block_entry_dirblocks id "" w) (alKeys w.entries) w

theorem blank_all_entries_some {σ : Type} (w : MainWindow σ)
    (h : hasAllDirections w.state.calculator.directional_blocks = true) :
    ∃ w', blank_all_entries w = some w'
      ∧ hasAllDirections w'.state.calculator.directional_blocks = true := by
  unfold blank_all_entries
  have hub : hasAllDirections (blank_undirected w).state.calculator.directional_blocks = true := by
    rw [blank_undirected_dirblocks]
    exact h
  exact foldlM_some _ (fun w => hasAllDirections w.state.calculator.directional_blocks = true)
    (fun w d hw => foldlM_some _ _ (fun w id hw => set_dir_block_entry_some d id "" w hw)
      (alKeys (w.dir_entries d)) w hw)
    Direction.iterList _ hub

theorem set_dir_entries_from_some {σ : Type} (d : Direction) (pairs : List (BlockId × Nat))
    (w : MainWindow σ) (h : hasAllDirections w.state.calculator.directional_blocks = true) :
    ∃ w', set_dir_entries_from d pairs w = some w'
      ∧ hasAllDirections w'.state.calculator.directional_blocks = true := by
  unfold set_dir_entries_from
  exact foldlM_some _ _ (fun w p hw => set_dir_block_entry_some d p.1 (format_u64 p.2) w hw)
    pairs w h

theorem set_entries_from_dirblocks {σ : Type} (pairs : List (BlockId × Nat)) (w : MainWindow σ) :
    (set_entries_from pairs w).state.calculator.directional_blocks
      = w.state.calculator.directional_blocks := by
  unfold set_entries_from
  exact foldl_dirblocks _ (fun w p => set_block_entry_dirblocks p.1 (format_u64 p.2) w) pairs w

theorem scalar_refresh_dirblocks {σ : Type} (ops : ScalarOps σ) (calculator : GridCalculator σ)
    (w : MainWindow σ) :
    (scalar_refresh ops calculator w).state.calculator.directional_blocks
      = w.state.calculator.directional_blocks :=
  foldl_dirblocks _ (fun w f => set_scalar_entry_dirblocks ops f (calculator.scalars f) w)
    ScalarField.iterList w

theorem dir_refresh_some {σ : Type} (calculator : GridCalculator σ) (w : MainWindow σ)
    (h : hasAllDirections w.state.calculator.directional_blocks = true)
    (hc : hasAllDirections calculator.directional_blocks = true) :
    ∃ w', dir_refresh calculator w = some w' := by
  unfold dir_refresh
  obtain ⟨w', hw', _⟩ := foldlM_some
    (fun w d =>
      match alGet calculator.directional_blocks d with
      | none => none
      | some pairs => set_dir_entries_from d pairs w)
    (fun w => hasAllDirections w.state.calculator.directional_blocks = true)
    (fun w d hw => by
      obtain ⟨pairs, hp⟩ := hasAllDirections_get hc d
      obtain ⟨w', hw', hP'⟩ := set_dir_entries_from_some d pairs w hw
      exact ⟨w', by simp only [hp]; exact hw', hP'⟩)
    Direction.iterList w h
  exact ⟨w', hw'⟩

theorem refresh_phase_some {σ : Type} (ops : ScalarOps σ) (calculator : GridCalculator σ)
    (w : MainWindow σ) (h : hasAllDirections w.state.calculator.directional_blocks = true)
    (hc : hasAllDirections calculator.directional_blocks = true) :
    ∃ w', refresh_phase ops calculator w = some w' := by
  unfold refresh_phase
  have h1 : hasAllDirections (scalar_refresh ops calculator w).state.calculator.directional_blocks = true := by
    rw [scalar_refresh_dirblocks]
    exact h
  obtain ⟨w2, h2, hP2⟩ := blank_all_entries_some _ h1
  rw [h2, Option.some_bind]
  have h3 : hasAllDirections
      (set_entries_from calculator.iter_block_counts w2).state.calculator.directional_blocks = true := by
    rw [set_entries_from_dirblocks]
    exact hP2
  exact dir_refresh_some calculator _ h3 hc

/-- Is an open outcome a success? -/
def openIsOk {σ : Type} : OpenOutcome σ → Bool
  | .ok _ => true
  | _ => false

/-- The window carried by an open outcome (`fallback` for a panic). -/
def openWindow {σ : Type} (o : OpenOutcome σ) (fallback : MainWindow σ) : MainWindow σ :=
  match o with
  | .ok w => w
  | .error _ w => w
  | .panic => fallback

/-- Is a save outcome a success? -/
def saveIsOk {σ : Type} : SaveOutcome σ → Bool
  | .ok _ _ => true
  | _ => false

/-- The window carried by a save outcome. -/
def saveWindow {σ : Type} : SaveOutcome σ → MainWindow σ
  | .ok w _ => w
  | .error _ w _ => w

/-- The file contents carried by a save outcome. -/
def saveFiles {σ : Type} : SaveOutcome σ → List (String × String)
  | .ok _ fs => fs.files
  | .error _ _ fs => fs.files

/-- The literal per-field defaults of `MainWindow::initialize`
(main_window.rs lines 421-429). -/
def scalarDefaults : ScalarField → Nat
  | .gravity_multiplier => 1
  | .container_multiplier => 1
  | .planetary_influence => 1
  | .additional_mass => 0
  | .ice_only_fill => 100
  | .ore_only_fill => 100
  | .any_fill_with_ice => 0
  | .any_fill_with_ore => 0
  | .any_fill_with_steel_plates => 0

/-- A concrete scalar instantiation used to evaluate the model at concrete
inputs: `Nat` values with `u64` parsing and decimal formatting. -/
def natOps : ScalarOps Nat :=
  ⟨parse_u64, fun n => toString n, scalarDefaults⟩

/-- A directional map holding all six direction keys with empty count maps. -/
def emptyDirBlocks : List (Direction × List (BlockId × Nat)) :=
  Direction.iterList.map fun d => (d, [])

/-- A calculator with zero scalars and empty maps. -/
def calcZero : GridCalculator Nat :=
  ⟨fun _ => 0, [], emptyDirBlocks⟩

/-- A window with blank scalar texts, the given undirected entry table, the
given directional entry tables, the given calculator, no remembered paths and
an empty recalculation log. -/
def mkWindow (entries : List (BlockId × String)) (dirs : Direction → List (BlockId × String))
    (c : GridCalculator Nat) : MainWindow Nat :=
  ⟨fun _ => "", entries, dirs, ⟨none, none, c⟩, []⟩

/-- The quantity-map invariant claimed by the spec: every block id used as a
key in the undirected map or in any directional map is known to the catalog. -/
def idsKnown {σ : Type} (catalog : List BlockId) (c : GridCalculator σ) : Bool :=
  ((alKeys c.blocks).all fun id => catalog.contains id)
    && (c.directional_blocks.all fun p => (alKeys p.2).all fun id => catalog.contains id)

theorem mem_alKeys_alInsert {κ ν : Type} [DecidableEq κ] (m : List (κ × ν)) (k x : κ) (v : ν)
    (h : x ∈ alKeys (alInsert m k v)) : x ∈ alKeys m ∨ x = k := by
  simp only [alKeys, List.mem_map] at h
  obtain ⟨q, hq, hx⟩ := h
  rcases mem_alInsert m k v q hq with h | h
  · exact Or.inl (by simp only [alKeys, List.mem_map]; exact ⟨q, h, hx⟩)
  · subst h
    exact Or.inr hx.symm

theorem alKeys_all_alInsert {κ ν : Type} [DecidableEq κ] (m : List (κ × ν)) (k : κ) (v : ν)
    (P : κ → Bool) (hm : (alKeys m).all P = true) (hk : P k = true) :
    (alKeys (alInsert m k v)).all P = true := by
  rw [List.all_eq_true] at hm ⊢
  intro x hx
  rcases mem_alKeys_alInsert m k x v hx with h | h
  · exact hm x h
  · subst h
    exact hk

theorem idsKnown_insert_block {σ : Type} (catalog : List BlockId) (c : GridCalculator σ)
    (id : BlockId) (n : Nat) (h : idsKnown catalog c = true) (hid : catalog.contains id = true) :
    idsKnown catalog { c with blocks := alInsert c.blocks id n } = true := by
  simp only [idsKnown, Bool.and_eq_true] at h ⊢
  exact ⟨alKeys_all_alInsert _ _ _ _ h.1 hid, h.2⟩

theorem idsKnown_insert_dir {σ : Type} (catalog : List BlockId) (c : GridCalculator σ)
    (d : Direction) (m : List (BlockId × Nat)) (id : BlockId) (n : Nat)
    (h : idsKnown catalog c = true) (hid : catalog.contains id = true)
    (hm : alGet c.directional_blocks d = some m) :
    idsKnown catalog
      { c with directional_blocks := alInsert c.directional_blocks d (alInsert m id n) } = true := by
  simp only [idsKnown, Bool.and_eq_true] at h ⊢
  refine ⟨h.1, ?_⟩
  rw [List.all_eq_true] at h ⊢
  · intro q hq
    rcases mem_alInsert _ _ _ q hq with hmem | hmem
    · exact (List.all_eq_true.mp h.2) q hmem
    · subst hmem
      have hmAll : (alKeys m).all (fun id => catalog.contains id) = true :=
        (List.all_eq_true.mp h.2) (d, m) (alGet_mem _ _ _ hm)
      exact alKeys_all_alInsert m id n _ hmAll hid

theorem idsKnown_scalars {σ : Type} (catalog : List BlockId) (c : GridCalculator σ)
    (f : ScalarField) (v : σ) :
    idsKnown catalog (c.setScalar f v) = idsKnown catalog c := rfl

/-- A small concrete window for witnesses: no block entries, zero calculator. -/
def w0 : MainWindow Nat := mkWindow [] (fun _ => []) calcZero

/-- C1: if `load` fails with either failure mode (I/O failure or deserialize
failure), the Model State (calculator, remembered directory, remembered file
path) and the displayed text of every bound field are identical to their
pre-call values — the error outcome carries the window exactly as it was —
and the failure is returned as a typed error value carrying the offending
path. -/
theorem load_atomicity {σ : Type} (ops : ScalarOps σ) (fs : String → Option String)
    (from_json : String → Option (GridCalculator σ)) (file_path : String) (w : MainWindow σ) :
    (∀ e w', process_open ops fs from_json file_path w = .error e w' →
      w' = w ∧ (e = .OpenFile file_path ∨ e = .OpenDeserialize file_path)) ∧
    (fs file_path = none →
      process_open ops fs from_json file_path w = .error (.OpenFile file_path) w) ∧
    (∀ contents, fs file_path = some contents → from_json contents = none →
      process_open ops fs from_json file_path w = .error (.OpenDeserialize file_path) w) := by
  refine ⟨?_, ?_, ?_⟩
  · intro e w' h
    unfold process_open at h
    split at h
    · simp only [OpenOutcome.error.injEq] at h
      exact ⟨h.2.symm, Or.inl h.1.symm⟩
    · split at h
      · simp only [OpenOutcome.error.injEq] at h
        exact ⟨h.2.symm, Or.inr h.1.symm⟩
      · split at h
        · exact OpenOutcome.noConfusion h
        · exact OpenOutcome.noConfusion h
  · intro hfs
    simp only [process_open, hfs]
  · intro contents hfs hj
    simp only [process_open, hfs, hj]

/-- C1 witness: on an unreadable path, `process_open` returns the
`OpenFile` error carrying the path and the untouched window. -/
theorem load_atomicity_witness :
    process_open natOps (fun _ => none) (fun _ => none) "a.json" w0
      = .error (.OpenFile "a.json") w0 :=
  (load_atomicity natOps (fun _ => none) (fun _ => none) "a.json" w0).2.1 rfl

/-- C3: a scalar field edit whose text fails to parse writes the configured
default into the model attribute (not the prior value), the edit is accepted
(the operation is total, no error value exists), recalculate runs exactly
once for the edit (one snapshot is prepended to the log), and other scalar
attributes are untouched. -/
theorem parse_default_property {σ : Type} (ops : ScalarOps σ) (f : ScalarField) (t : String)
    (w : MainWindow σ) (h : ops.parse t = none) :
    (user_edit_scalar ops f t w).state.calculator.scalars f = ops.default f ∧
    (user_edit_scalar ops f t w).recalc_log
      = (user_edit_scalar ops f t w).state.calculator :: w.recalc_log ∧
    (∀ g, g ≠ f → (user_edit_scalar ops f t w).state.calculator.scalars g
      = w.state.calculator.scalars g) := by
  refine ⟨?_, ?_, ?_⟩
  · simp [user_edit_scalar, set_and_recalc_handler, recalculate, setScalarText,
      GridCalculator.setScalar, entry_parse, h]
  · simp [user_edit_scalar, set_and_recalc_handler, recalculate, setScalarText,
      GridCalculator.setScalar, entry_parse, h]
  · intro g hg
    simp [user_edit_scalar, set_and_recalc_handler, recalculate, setScalarText,
      GridCalculator.setScalar, entry_parse, h, hg]

/-- C3 witness: the unparseable text "abc" drives gravity_multiplier to its
default 1. -/
theorem parse_default_property_witness :
    natOps.parse "abc" = none ∧
    (user_edit_scalar natOps .gravity_multiplier "abc" w0).state.calculator.scalars
      .gravity_multiplier = natOps.default .gravity_multiplier :=
  ⟨by decide, (parse_default_property natOps .gravity_multiplier "abc" w0 (by decide)).1⟩

/-- C5: save never mutates the numeric content of the Model State (the
calculator is unchanged in every outcome), no field text or log changes, and
the remembered file path and directory are updated exactly when the save
fully succeeds (on either failure the window is returned untouched). -/
theorem save_frame_property {σ : Type} (to_json : GridCalculator σ → Option String) (fs : FS)
    (file_path : String) (w : MainWindow σ) :
    (∀ e w' fs', process_save to_json fs file_path w = .error e w' fs' → w' = w) ∧
    (∀ w' fs', process_save to_json fs file_path w = .ok w' fs' →
      w'.state.calculator = w.state.calculator ∧
      w'.state.current_file_path = some file_path ∧
      w'.state.current_dir_path = path_parent file_path ∧
      w'.scalar_texts = w.scalar_texts ∧ w'.entries = w.entries ∧
      w'.dir_entries = w.dir_entries ∧ w'.recalc_log = w.recalc_log) := by
  refine ⟨?_, ?_⟩
  · intro e w' fs' h
    unfold process_save at h
    split at h
    · simp only [SaveOutcome.error.injEq] at h
      exact h.2.1.symm
    · split at h
      · simp only [SaveOutcome.error.injEq] at h
        exact h.2.1.symm
      · exact SaveOutcome.noConfusion h
  · intro w' fs' h
    unfold process_save at h
    split at h
    · exact SaveOutcome.noConfusion h
    · split at h
      · exact SaveOutcome.noConfusion h
      · simp only [SaveOutcome.ok.injEq] at h
        rw [← h.1]
        exact ⟨rfl, rfl, rfl, rfl, rfl, rfl, rfl⟩

/-- C5 witness: a concrete fully successful save leaves the calculator
untouched. -/
theorem save_frame_property_witness :
    ∃ w' fs', process_save (fun _ : GridCalculator Nat => some "S")
        ⟨[], fun _ => true⟩ "p" w0 = .ok w' fs'
      ∧ w'.state.calculator = w0.state.calculator :=
  ⟨_, _, rfl, ((save_frame_property (fun _ : GridCalculator Nat => some "S")
      ⟨[], fun _ => true⟩ "p" w0).2 _ _ rfl).1⟩

/-- Concrete save scenario for the truncation analysis: the file previously
holds ten characters, the serializer emits two. -/
def c4fs : FS := ⟨[("save.json", "0123456789")], fun _ => true⟩

/-- The save outcome of that scenario. -/
def c4out : SaveOutcome Nat := process_save (fun _ => some "XY") c4fs "save.json" w0

/-- C4 (evaluating the code at the failing input): the save succeeds, yet the
resulting file contents are the two serialized characters followed by residue
of the longer previous contents — not exactly the serialization — because
`process_save` opens with `write(true).create(true)` and never truncates. -/
theorem save_truncation_bug :
    saveIsOk c4out = true ∧
    alGet (saveFiles c4out) "save.json" = some "XY23456789" ∧
    some ("XY23456789" : String) ≠ some ("XY" : String) := by
  refine ⟨?_, ?_, ?_⟩ <;> decide

/-- Loaded document for the load-completeness scenario: counts A=3, B=0,
catalog also has C (bound entry, absent from the map). -/
def c6doc : GridCalculator Nat := ⟨fun _ => 0, [("A", 3), ("B", 0)], emptyDirBlocks⟩

/-- Window with bound entries for A, B and C. -/
def c6w : MainWindow Nat := mkWindow [("A", ""), ("B", ""), ("C", "")] (fun _ => []) calcZero

/-- The load outcome of that scenario. -/
def c6out : OpenOutcome Nat :=
  process_open natOps (fun _ => some "doc") (fun _ => some c6doc) "doc" c6w

/-- C6: after a successful load of a document with counts A=3 and B=0 where
the catalog also binds an entry for C, the field for A displays "3", the
field for B displays "0", the field for C displays the empty string, and a
subsequent edit of C with empty text writes count 0 into the model. -/
theorem load_completeness :
    openIsOk c6out = true ∧
    alGet (openWindow c6out c6w).entries "A" = some "3" ∧
    alGet (openWindow c6out c6w).entries "B" = some "0" ∧
    alGet (openWindow c6out c6w).entries "C" = some "" ∧
    alGet (user_edit_block "C" "" (openWindow c6out c6w)).state.calculator.blocks "C"
      = some 0 := by
  refine ⟨?_, ?_, ?_, ?_, ?_⟩ <;> decide

/-- Loaded document for the unknown-id scenario: A=2 is bound, Z=7 has no
bound entry and is unknown to the catalog. -/
def c10doc : GridCalculator Nat := ⟨fun _ => 0, [("A", 2), ("Z", 7)], emptyDirBlocks⟩

/-- Window with a bound entry for A only. -/
def c10w : MainWindow Nat := mkWindow [("A", "")] (fun _ => []) calcZero

/-- The load outcome of that scenario. -/
def c10out : OpenOutcome Nat :=
  process_open natOps (fun _ => some "doc") (fun _ => some c10doc) "doc" c10w

theorem foldl_preserve {σ α : Type} (step : MainWindow σ → α → MainWindow σ)
    (P : MainWindow σ → Prop) (hstep : ∀ w a, P w → P (step w a)) :
    ∀ (l : List α) (w : MainWindow σ), P w → P (l.foldl step w) := by
  intro l
  induction l with
  | nil => intro w hw; exact hw
  | cons a as ih => intro w hw; rw [List.foldl_cons]; exact ih _ (hstep w a hw)

theorem foldlM_preserve {σ α : Type} (step : MainWindow σ → α → Option (MainWindow σ))
    (P : MainWindow σ → Prop) (hstep : ∀ w a w', step w a = some w' → P w → P w') :
    ∀ (l : List α) (w w' : MainWindow σ), l.foldlM step w = some w' → P w → P w' := by
  intro l
  induction l with
  | nil =>
    intro w w' h hw
    exact (Option.some.inj h) ▸ hw
  | cons a as ih =>
    intro w w' h hw
    rw [List.foldlM_cons] at h
    cases hs : step w a with
    | none => rw [hs] at h; exact Option.noConfusion h
    | some w1 =>
      rw [hs] at h
      exact ih w1 w' h (hstep w a w1 hs hw)

theorem set_scalar_entry_entries {σ : Type} (ops : ScalarOps σ) (f : ScalarField) (v : σ)
    (w : MainWindow σ) : (set_scalar_entry ops f v w).entries = w.entries := by
  by_cases hfmt : ops.format v = w.scalar_texts f <;>
    simp [set_scalar_entry, hfmt, set_and_recalc_handler, recalculate, setScalarText]

theorem set_scalar_entry_dir_entries {σ : Type} (ops : ScalarOps σ) (f : ScalarField) (v : σ)
    (w : MainWindow σ) : (set_scalar_entry ops f v w).dir_entries = w.dir_entries := by
  by_cases hfmt : ops.format v = w.scalar_texts f <;>
    simp [set_scalar_entry, hfmt, set_and_recalc_handler, recalculate, setScalarText]

theorem set_block_entry_dir_entries {σ : Type} (id : BlockId) (t : String) (w : MainWindow σ) :
    (set_block_entry id t w).dir_entries = w.dir_entries := by
  unfold set_block_entry
  cases halGet : alGet w.entries id with
  | none => rfl
  | some old =>
    by_cases he : old = t
    · simp [he]
    · simp [he, insert_and_recalc_handler, recalculate]

theorem set_block_entry_entries_none {σ : Type} (id' : BlockId) (t : String) (w : MainWindow σ)
    (id : BlockId) (h : alGet w.entries id = none) :
    alGet (set_block_entry id' t w).entries id = none := by
  unfold set_block_entry
  cases hg : alGet w.entries id' with
  | none => exact h
  | some old =>
    by_cases he : old = t
    · simp only [he, if_true]
      exact h
    · simp only [he, if_false]
      show alGet (alInsert w.entries id' t) id = none
      rw [alGet_alInsert]
      have hne : ¬ id' = id := by
        intro hc
        rw [hc, h] at hg
        exact Option.noConfusion hg
      simp [hne, h]

theorem set_dir_block_entry_entries {σ : Type} (d0 : Direction) (id0 : BlockId) (t : String)
    (w w' : MainWindow σ) (h : set_dir_block_entry d0 id0 t w = some w') :
    w'.entries = w.entries := by
  unfold set_dir_block_entry at h
  cases hg : alGet (w.dir_entries d0) id0 with
  | none =>
    simp only [hg, Option.some.injEq] at h
    rw [← h]
  | some old =>
    simp only [hg] at h
    by_cases he : old = t
    · rw [if_pos he, Option.some.injEq] at h
      rw [← h]
    · rw [if_neg he] at h
      unfold insert_and_recalc_dir_handler at h
      dsimp only at h
      cases hm : alGet w.state.calculator.directional_blocks d0 with
      | none => rw [hm] at h; exact Option.noConfusion h
      | some m =>
        rw [hm] at h
        simp only [Option.some.injEq] at h
        rw [← h]
        rfl

theorem set_dir_block_entry_dir_none {σ : Type} (d0 : Direction) (id0 : BlockId) (t : String)
    (w w' : MainWindow σ) (h : set_dir_block_entry d0 id0 t w = some w')
    (d : Direction) (id : BlockId) (hnone : alGet (w.dir_entries d) id = none) :
    alGet (w'.dir_entries d) id = none := by
  unfold set_dir_block_entry at h
  cases hg : alGet (w.dir_entries d0) id0 with
  | none =>
    simp only [hg, Option.some.injEq] at h
    rw [← h]
    exact hnone
  | some old =>
    simp only [hg] at h
    by_cases he : old = t
    · rw [if_pos he, Option.some.injEq] at h
      rw [← h]
      exact hnone
    · rw [if_neg he] at h
      unfold insert_and_recalc_dir_handler at h
      dsimp only at h
      cases hm : alGet w.state.calculator.directional_blocks d0 with
      | none => rw [hm] at h; exact Option.noConfusion h
      | some m =>
        rw [hm] at h
        simp only [Option.some.injEq] at h
        rw [← h]
        show alGet (if d = d0 then alInsert (w.dir_entries d0) id0 t else w.dir_entries d) id = none
        by_cases hd : d = d0
        · subst hd
          rw [if_pos rfl, alGet_alInsert]
          have hne : ¬ id0 = id := by
            intro hc
            rw [hc, hnone] at hg
            exact Option.noConfusion hg
          simp [hne, hnone]
        · rw [if_neg hd]
          exact hnone

theorem refresh_phase_entries_none {σ : Type} (ops : ScalarOps σ) (cal : GridCalculator σ)
    (w w' : MainWindow σ) (h : refresh_phase ops cal w = some w') (id : BlockId)
    (hnone : alGet w.entries id = none) : alGet w'.entries id = none := by
  unfold refresh_phase at h
  cases hb : blank_all_entries (scalar_refresh ops cal w) with
  | none => rw [hb] at h; exact Option.noConfusion h
  | some wb =>
    rw [hb, Option.some_bind] at h
    have h1 : alGet (scalar_refresh ops cal w).entries id = none := by
      unfold scalar_refresh
      have hs : ∀ (x : MainWindow σ) (f : ScalarField), alGet x.entries id = none →
          alGet (set_scalar_entry ops f (cal.scalars f) x).entries id = none := by
        intro x f hx
        rw [set_scalar_entry_entries]
        exact hx
      exact foldl_preserve _ (fun x => alGet x.entries id = none) hs ScalarField.iterList w hnone
    have h2 : alGet (blank_undirected (scalar_refresh ops cal w)).entries id = none := by
      unfold blank_undirected
      exact foldl_preserve _ (fun x => alGet x.entries id = none)
        (fun x a hx => set_block_entry_entries_none a "" x id hx)
        _ _ h1
    have h3 : alGet wb.entries id = none := by
      unfold blank_all_entries at hb
      have hstep3 : ∀ (x : MainWindow σ) (d0 : Direction) (x' : MainWindow σ),
          (alKeys (x.dir_entries d0)).foldlM (fun y a => set_dir_block_entry d0 a "" y) x
            = some x' →
          alGet x.entries id = none → alGet x'.entries id = none := by
        intro x d0 x' hx' hx
        have hinner : ∀ (y : MainWindow σ) (a : BlockId) (y' : MainWindow σ),
            set_dir_block_entry d0 a "" y = some y' →
            alGet y.entries id = none → alGet y'.entries id = none := by
          intro y a y' hy' hy
          rw [set_dir_block_entry_entries d0 a "" y y' hy']
          exact hy
        exact foldlM_preserve _ (fun y => alGet y.entries id = none) hinner _ x x' hx' hx
      exact foldlM_preserve _ (fun x => alGet x.entries id = none) hstep3
        Direction.iterList _ wb hb h2
    have h4 : alGet (set_entries_from cal.iter_block_counts wb).entries id = none := by
      unfold set_entries_from
      have hs : ∀ (x : MainWindow σ) (p : BlockId × Nat), alGet x.entries id = none →
          alGet (set_block_entry p.1 (format_u64 p.2) x).entries id = none := by
        intro x p hx
        exact set_block_entry_entries_none p.1 (format_u64 p.2) x id hx
      exact foldl_preserve _ (fun x => alGet x.entries id = none) hs _ _ h3
    unfold dir_refresh at h
    have hstep5 : ∀ (x : MainWindow σ) (d0 : Direction) (x' : MainWindow σ),
        (match alGet cal.directional_blocks d0 with
          | none => none
          | some pairs => set_dir_entries_from d0 pairs x) = some x' →
        alGet x.entries id = none → alGet x'.entries id = none := by
      intro x d0 x' hx' hx
      cases hm : alGet cal.directional_blocks d0 with
      | none => rw [hm] at hx'; exact Option.noConfusion hx'
      | some pairs =>
        rw [hm] at hx'
        unfold set_dir_entries_from at hx'
        have hinner : ∀ (y : MainWindow σ) (p : BlockId × Nat) (y' : MainWindow σ),
            set_dir_block_entry d0 p.1 (format_u64 p.2) y = some y' →
            alGet y.entries id = none → alGet y'.entries id = none := by
          intro y p y' hy' hy
          rw [set_dir_block_entry_entries d0 p.1 (format_u64 p.2) y y' hy']
          exact hy
        exact foldlM_preserve _ (fun y => alGet y.entries id = none) hinner pairs x x' hx' hx
    exact foldlM_preserve _ (fun x => alGet x.entries id = none) hstep5
      Direction.iterList _ w' h h4

theorem refresh_phase_dir_entries_none {σ : Type} (ops : ScalarOps σ) (cal : GridCalculator σ)
    (w w' : MainWindow σ) (h : refresh_phase ops cal w = some w') (d : Direction) (id : BlockId)
    (hnone : alGet (w.dir_entries d) id = none) : alGet (w'.dir_entries d) id = none := by
  unfold refresh_phase at h
  cases hb : blank_all_entries (scalar_refresh ops cal w) with
  | none => rw [hb] at h; exact Option.noConfusion h
  | some wb =>
    rw [hb, Option.some_bind] at h
    have h1 : alGet ((scalar_refresh ops cal w).dir_entries d) id = none := by
      unfold scalar_refresh
      have hs : ∀ (x : MainWindow σ) (f : ScalarField), alGet (x.dir_entries d) id = none →
          alGet ((set_scalar_entry ops f (cal.scalars f) x).dir_entries d) id = none := by
        intro x f hx
        rw [set_scalar_entry_dir_entries]
        exact hx
      exact foldl_preserve _ (fun x => alGet (x.dir_entries d) id = none) hs
        ScalarField.iterList w hnone
    have h2 : alGet ((blank_undirected (scalar_refresh ops cal w)).dir_entries d) id = none := by
      unfold blank_undirected
      have hs : ∀ (x : MainWindow σ) (a : BlockId), alGet (x.dir_entries d) id = none →
          alGet ((set_block_entry a "" x).dir_entries d) id = none := by
        intro x a hx
        rw [set_block_entry_dir_entries]
        exact hx
      exact foldl_preserve _ (fun x => alGet (x.dir_entries d) id = none) hs _ _ h1
    have h3 : alGet (wb.dir_entries d) id = none := by
      unfold blank_all_entries at hb
      have hstep3 : ∀ (x : MainWindow σ) (d0 : Direction) (x' : MainWindow σ),
          (alKeys (x.dir_entries d0)).foldlM (fun y a => set_dir_block_entry d0 a "" y) x
            = some x' →
          alGet (x.dir_entries d) id = none → alGet (x'.dir_entries d) id = none := by
        intro x d0 x' hx' hx
        have hinner : ∀ (y : MainWindow σ) (a : BlockId) (y' : MainWindow σ),
            set_dir_block_entry d0 a "" y = some y' →
            alGet (y.dir_entries d) id = none → alGet (y'.dir_entries d) id = none := by
          intro y a y' hy' hy
          exact set_dir_block_entry_dir_none d0 a "" y y' hy' d id hy
        exact foldlM_preserve _ (fun y => alGet (y.dir_entries d) id = none) hinner _ x x' hx' hx
      exact foldlM_preserve _ (fun x => alGet (x.dir_entries d) id = none) hstep3
        Direction.iterList _ wb hb h2
    have h4 : alGet ((set_entries_from cal.iter_block_counts wb).dir_entries d) id = none := by
      unfold set_entries_from
      have hs : ∀ (x : MainWindow σ) (p : BlockId × Nat), alGet (x.dir_entries d) id = none →
          alGet ((set_block_entry p.1 (format_u64 p.2) x).dir_entries d) id = none := by
        intro x p hx
        rw [set_block_entry_dir_entries]
        exact hx
      exact foldl_preserve _ (fun x => alGet (x.dir_entries d) id = none) hs _ _ h3
    unfold dir_refresh at h
    have hstep5 : ∀ (x : MainWindow σ) (d0 : Direction) (x' : MainWindow σ),
        (match alGet cal.directional_blocks d0 with
          | none => none
          | some pairs => set_dir_entries_from d0 pairs x) = some x' →
        alGet (x.dir_entries d) id = none → alGet (x'.dir_entries d) id = none := by
      intro x d0 x' hx' hx
      cases hm : alGet cal.directional_blocks d0 with
      | none => rw [hm] at hx'; exact Option.noConfusion hx'
      | some pairs =>
        rw [hm] at hx'
        unfold set_dir_entries_from at hx'
        have hinner : ∀ (y : MainWindow σ) (p : BlockId × Nat) (y' : MainWindow σ),
            set_dir_block_entry d0 p.1 (format_u64 p.2) y = some y' →
            alGet (y.dir_entries d) id = none → alGet (y'.dir_entries d) id = none := by
          intro y p y' hy' hy
          exact set_dir_block_entry_dir_none d0 p.1 (format_u64 p.2) y y' hy' d id hy
        exact foldlM_preserve _ (fun y => alGet (y.dir_entries d) id = none) hinner
          pairs x x' hx' hx
    exact foldlM_preserve _ (fun x => alGet (x.dir_entries d) id = none) hstep5
      Direction.iterList _ w' h h4

/-- C10: for every successful load, the Model State calculator is replaced
wholesale by the deserialized instance, so every `(id, count)` pair of the
loaded maps — in particular every pair whose id has no bound entry field —
is retained in the Model State maps and thus participates in subsequent
recalculation and save; and such a pair is silently skipped for display: an
id with no bound entry field (undirected or in any direction) before the
load still has none afterwards, so no field text is ever written for it. -/
theorem unknown_ids_retained {σ : Type} (ops : ScalarOps σ) (fs : String → Option String)
    (from_json : String → Option (GridCalculator σ)) (file_path : String)
    (w w' : MainWindow σ) (hok : process_open ops fs from_json file_path w = .ok w')
    (contents : String) (calculator : GridCalculator σ)
    (hfs : fs file_path = some contents) (hj : from_json contents = some calculator) :
    w'.state.calculator = calculator ∧
    (∀ id, alGet w.entries id = none → alGet w'.entries id = none) ∧
    (∀ d id, alGet (w.dir_entries d) id = none → alGet (w'.dir_entries d) id = none) ∧
    (∀ id count, alGet calculator.blocks id = some count →
      alGet w'.state.calculator.blocks id = some count) ∧
    (∀ d id count m, alGet calculator.directional_blocks d = some m →
      alGet m id = some count →
      ∃ m', alGet w'.state.calculator.directional_blocks d = some m'
        ∧ alGet m' id = some count) := by
  unfold process_open at hok
  simp only [hfs, hj] at hok
  cases hr : refresh_phase ops calculator w with
  | none =>
    simp only [hr] at hok
    exact OpenOutcome.noConfusion hok
  | some w2 =>
    simp only [hr, OpenOutcome.ok.injEq] at hok
    refine ⟨by rw [← hok], ?_, ?_, ?_, ?_⟩
    · intro id hnone
      rw [← hok]
      exact refresh_phase_entries_none ops calculator w w2 hr id hnone
    · intro d id hnone
      rw [← hok]
      exact refresh_phase_dir_entries_none ops calculator w w2 hr d id hnone
    · intro id count hc
      rw [← hok]
      exact hc
    · intro d id count m hm hc
      rw [← hok]
      exact ⟨m, hm, hc⟩

/-- C10 witness: the concrete scenario, with the unbound pair Z=7 retained in
the replaced calculator and no entry text existing for Z. -/
theorem unknown_ids_retained_witness :
    alGet (openWindow c10out c10w).state.calculator.blocks "Z" = some 7 ∧
    alGet (openWindow c10out c10w).entries "Z" = none :=
  ⟨(unknown_ids_retained natOps (fun _ => some "doc") (fun _ => some c10doc) "doc"
      c10w (openWindow c10out c10w) rfl "doc" c10doc rfl rfl).2.2.2.1 "Z" 7 (by decide),
   (unknown_ids_retained natOps (fun _ => some "doc") (fun _ => some c10doc) "doc"
      c10w (openWindow c10out c10w) rfl "doc" c10doc rfl rfl).2.1 "Z" (by decide)⟩

/-- Loaded document for the batched-recalculation scenario: one bound count. -/
def c2doc : GridCalculator Nat := ⟨fun _ => 0, [("A", 3)], emptyDirBlocks⟩

/-- Window with a bound entry for A, empty recalculation log. -/
def c2w : MainWindow Nat := mkWindow [("A", "")] (fun _ => []) calcZero

/-- The load outcome of that scenario. -/
def c2out : OpenOutcome Nat :=
  process_open natOps (fun _ => some "doc") (fun _ => some c2doc) "doc" c2w

/-- C2 counterexample: this successful load triggers ten recalculations (one
per text-changing field refresh: nine scalar entries change from blank to
"0", one block entry changes to "3"), not exactly one. -/
theorem batched_recalc_counterexample :
    openIsOk c2out = true ∧
    (openWindow c2out c2w).recalc_log.length = 10 ∧
    ¬ (openWindow c2out c2w).recalc_log.length = 1 := by
  refine ⟨?_, ?_, ?_⟩ <;> decide

/-- C2 (amended): on a successful load, every recalculation is triggered by
the field-refresh phase, which runs before the calculator replacement (each
text-changing refresh fires its handler once against the still-current
calculator); the replacement step itself triggers no recalculation, so the
result log equals the refresh-phase log and there is no recalculation of the
newly installed calculator. -/
theorem load_recalc_per_refresh {σ : Type} (ops : ScalarOps σ) (fs : String → Option String)
    (from_json : String → Option (GridCalculator σ)) (file_path : String) (w : MainWindow σ) :
    ∀ w', process_open ops fs from_json file_path w = .ok w' →
      ∃ contents calculator w'',
        fs file_path = some contents ∧ from_json contents = some calculator ∧
        refresh_phase ops calculator w = some w'' ∧
        w'.recalc_log = w''.recalc_log ∧
        w'.state.calculator = calculator ∧
        w'.scalar_texts = w''.scalar_texts ∧ w'.entries = w''.entries := by
  intro w' h
  unfold process_open at h
  cases hfs : fs file_path with
  | none =>
    simp only [hfs] at h
    exact OpenOutcome.noConfusion h
  | some contents =>
    simp only [hfs] at h
    cases hj : from_json contents with
    | none =>
      simp only [hj] at h
      exact OpenOutcome.noConfusion h
    | some calculator =>
      simp only [hj] at h
      cases hr : refresh_phase ops calculator w with
      | none =>
        simp only [hr] at h
        exact OpenOutcome.noConfusion h
      | some w2 =>
        simp only [hr, OpenOutcome.ok.injEq] at h
        exact ⟨contents, calculator, w2, rfl, hj, hr,
          by rw [← h], by rw [← h], by rw [← h], by rw [← h]⟩

/-- C2 amended witness: the decomposition applied to the concrete scenario. -/
theorem load_recalc_per_refresh_witness :
    ∃ contents calculator w'',
      (fun _ : String => some "doc") "doc" = some contents ∧
      (fun _ : String => some c2doc) contents = some calculator ∧
      refresh_phase natOps calculator c2w = some w'' ∧
      (openWindow c2out c2w).recalc_log = w''.recalc_log ∧
      (openWindow c2out c2w).state.calculator = calculator ∧
      (openWindow c2out c2w).scalar_texts = w''.scalar_texts ∧
      (openWindow c2out c2w).entries = w''.entries :=
  load_recalc_per_refresh natOps (fun _ => some "doc") (fun _ => some c2doc) "doc" c2w
    (openWindow c2out c2w) rfl

/-- C7: an edit through the Up-direction entry for item `id` writes only the
Up-direction map entry for `id`: the other five directional maps are
unchanged, every other item of the Up map is unchanged, and the undirected
map and the scalars are unchanged. -/
theorem directional_independence {σ : Type} (id : BlockId) (t : String) (w : MainWindow σ)
    (m : List (BlockId × Nat))
    (h : alGet w.state.calculator.directional_blocks Direction.Up = some m) :
    ∃ w', user_edit_dir_block Direction.Up id t w = some w' ∧
      alGet w'.state.calculator.directional_blocks Direction.Up
        = some (alInsert m id (entry_parse parse_u64 0 t)) ∧
      (∀ d, d ≠ Direction.Up → alGet w'.state.calculator.directional_blocks d
        = alGet w.state.calculator.directional_blocks d) ∧
      (∀ id', id' ≠ id →
        alGet (alInsert m id (entry_parse parse_u64 0 t)) id' = alGet m id') ∧
      w'.state.calculator.blocks = w.state.calculator.blocks ∧
      w'.state.calculator.scalars = w.state.calculator.scalars := by
  have htext : (alGet (alInsert (w.dir_entries Direction.Up) id t) id).getD "" = t := by
    rw [alGet_alInsert]
    simp
  simp only [user_edit_dir_block, insert_and_recalc_dir_handler, if_pos rfl, h, htext,
    recalculate]
  refine ⟨_, rfl, ?_, ?_, ?_, rfl, rfl⟩
  · rw [alGet_alInsert]
    simp [htext]
  · intro d hd
    rw [alGet_alInsert]
    have hd' : ¬ Direction.Up = d := fun hc => hd hc.symm
    simp [hd']
  · intro id' hid'
    rw [alGet_alInsert]
    have hid'' : ¬ id = id' := fun hc => hid' hc.symm
    simp [hid'']

/-- C7 witness: a concrete Up-direction edit, applied to the empty maps. -/
theorem directional_independence_witness :
    ∃ w', user_edit_dir_block Direction.Up "T" "4" w0 = some w' ∧
      alGet w'.state.calculator.directional_blocks Direction.Up
        = some (alInsert [] "T" (entry_parse parse_u64 0 "4")) := by
  obtain ⟨w', h1, h2, -, -, -, -⟩ := directional_independence "T" "4" w0 [] (by decide)
  exact ⟨w', h1, h2⟩

/-- Loaded document for the invariant counterexample: the single pair Z=5,
with Z unknown to the catalog. -/
def c8doc : GridCalculator Nat := ⟨fun _ => 0, [("Z", 5)], emptyDirBlocks⟩

/-- Window whose catalog binds only A. -/
def c8w : MainWindow Nat := mkWindow [("A", "")] (fun _ => []) calcZero

/-- The load outcome of that scenario. -/
def c8out : OpenOutcome Nat :=
  process_open natOps (fun _ => some "doc") (fun _ => some c8doc) "doc" c8w

/-- C8 counterexample: the invariant that every quantity-map key is known to
the catalog holds before this successful load and is false after it — the
load installs the document maps wholesale, including the catalog-unknown
key Z. -/
theorem quantity_map_invariant_counterexample :
    idsKnown ["A"] c8w.state.calculator = true ∧
    openIsOk c8out = true ∧
    idsKnown ["A"] (openWindow c8out c8w).state.calculator = false ∧
    List.contains ["A"] "Z" = false := by
  refine ⟨?_, ?_, ?_, ?_⟩ <;> decide

/-- C8 (amended): after every scalar field edit, every collection edit whose
id is catalog-known (the only ids edits can use, since entries exist only
for catalog items), and every save, the quantity-map invariant is preserved:
all keys remain catalog-known; counts are `Nat`, hence non-negative, and an
absent key reads as the zero default.  A successful load, by contrast,
installs the document maps wholesale, so after a load the invariant holds
only if the loaded document satisfies it. -/
theorem quantity_map_invariant_preserved {σ : Type} (ops : ScalarOps σ)
    (catalog : List BlockId) (f : ScalarField) (t t' t'' : String) (id : BlockId)
    (d : Direction) (w : MainWindow σ)
    (hw : idsKnown catalog w.state.calculator = true)
    (hid : catalog.contains id = true) :
    idsKnown catalog (user_edit_scalar ops f t w).state.calculator = true ∧
    idsKnown catalog (user_edit_block id t' w).state.calculator = true ∧
    (∀ w', user_edit_dir_block d id t'' w = some w' →
      idsKnown catalog w'.state.calculator = true) ∧
    (∀ to_json fs file_path,
      idsKnown catalog (saveWindow (process_save to_json fs file_path w)).state.calculator
        = true) := by
  refine ⟨?_, ?_, ?_, ?_⟩
  · exact hw
  · exact idsKnown_insert_block catalog w.state.calculator id _ hw hid
  · intro w' hw'
    unfold user_edit_dir_block insert_and_recalc_dir_handler at hw'
    cases hm : alGet w.state.calculator.directional_blocks d with
    | none =>
      simp only [hm] at hw'
      exact Option.noConfusion hw'
    | some m =>
      simp only [hm, Option.some.injEq] at hw'
      rw [← hw']
      exact idsKnown_insert_dir catalog w.state.calculator d m id _ hw hid hm
  · intro to_json fs file_path
    unfold process_save
    split
    · exact hw
    · split
      · exact hw
      · exact hw

/-- C8 amended witness: a concrete catalog-known collection edit preserves
the invariant. -/
theorem quantity_map_invariant_preserved_witness :
    idsKnown ["A"] (user_edit_block "A" "2" c8w).state.calculator = true :=
  (quantity_map_invariant_preserved natOps ["A"] .additional_mass "x" "2" "3" "A"
    Direction.Up c8w (by decide) (by decide)).2.1

/-- Modelled from the spec: the directional map of every `GridCalculator` is
initialized with all six Direction keys present at construction time as an
invariant (spec design note); `secalc_core` and its deserializer are not
under `src/`, so this contract of `from_json` is taken as a hypothesis. -/
def loaded_has_all {σ : Type} (fs : String → Option String)
    (from_json : String → Option (GridCalculator σ)) (file_path : String) : Bool :=
  match (fs file_path).bind from_json with
  | some c => hasAllDirections c.directional_blocks
  | none => true

/-- C9: when the current calculator's directional map contains all six
Direction keys (and the deserializer honours the same construction
invariant), every directional-entry edit handler's lookup-and-unwrap
succeeds, and `process_open` never reaches the missing-key panic branch. -/
theorem directional_access_safety {σ : Type} (ops : ScalarOps σ) (fs : String → Option String)
    (from_json : String → Option (GridCalculator σ)) (file_path : String) (w : MainWindow σ)
    (h : hasAllDirections w.state.calculator.directional_blocks = true)
    (hload : loaded_has_all fs from_json file_path = true) :
    (∀ d id t, (user_edit_dir_block d id t w).isSome = true) ∧
    process_open ops fs from_json file_path w ≠ OpenOutcome.panic := by
  constructor
  · intro d id t
    unfold user_edit_dir_block
    obtain ⟨w', hw', -⟩ := insert_and_recalc_dir_handler_some d id
      { w with dir_entries := fun d' =>
          if d' = d then alInsert (w.dir_entries d) id t else w.dir_entries d' } h
    rw [hw']
    rfl
  · intro hcontra
    unfold process_open at hcontra
    cases hfs : fs file_path with
    | none =>
      simp only [hfs] at hcontra
      exact OpenOutcome.noConfusion hcontra
    | some contents =>
      simp only [hfs] at hcontra
      cases hj : from_json contents with
      | none =>
        simp only [hj] at hcontra
        exact OpenOutcome.noConfusion hcontra
      | some calculator =>
        simp only [hj] at hcontra
        have hc : hasAllDirections calculator.directional_blocks = true := by
          unfold loaded_has_all at hload
          simp only [hfs, Option.some_bind, hj] at hload
          exact hload
        obtain ⟨w2, hr⟩ := refresh_phase_some ops calculator w h hc
        simp only [hr] at hcontra
        exact OpenOutcome.noConfusion hcontra

/-- C9 witness: with all six keys present and a failing file read, the open
is not a panic; the hypotheses hold concretely. -/
theorem directional_access_safety_witness :
    process_open natOps (fun _ => none) (fun _ => none) "p" w0 ≠ OpenOutcome.panic :=
  (directional_access_safety natOps (fun _ => none) (fun _ => none) "p" w0
    (by decide) (by decide)).2
